import Mathlib

/-!
Verification development for the organoid extracellular-ephys pipeline
(`element_array_ephys`): the LFP extraction engine (`ephys_no_curation.py`,
class `LFP` with its tripartite `make_fetch` / `make_compute` / `make_insert`),
the `ClusteringParamSet.insert_new_params` classmethod, and the staged
spike-sorting orchestrator (`si_spike_sorting.py`: `PreProcessing`,
`SIClustering`, `PostProcessing`).

Times, durations and sampling rates are embedded as exact rationals,
represented as integer pairs `Q` with a positive denominator and compared by
cross-multiplication (every comparison the source performs on floats becomes
the corresponding exact comparison; no normalization is needed because the
embedding only ever compares values, never inspects representations).  The
scipy numeric kernels (`signal.filtfilt`, `signal.decimate`) and the raw
file reader (`intanrhdreader.load_file`) are external collaborators and
enter as function parameters of the embedding.
-/

/-- Exact rational numbers as integer pairs.  All values built by the
embedding keep `den` positive; operations are total, with junk values on a
zero denominator (the source would raise ZeroDivisionError there). -/
structure Q where
  num : Int
  den : Int
deriving DecidableEq

instance (n : Nat) : OfNat Q n := ⟨⟨(n : Int), 1⟩⟩

/-- Value equality of two rationals (cross-multiplication). -/
def Q.eqv (a b : Q) : Prop := a.num * b.den = b.num * a.den

instance (a b : Q) : Decidable (Q.eqv a b) :=
  inferInstanceAs (Decidable (_ = _))

def Q.add (a b : Q) : Q := ⟨a.num * b.den + b.num * a.den, a.den * b.den⟩

def Q.sub (a b : Q) : Q := ⟨a.num * b.den - b.num * a.den, a.den * b.den⟩

def Q.mul (a b : Q) : Q := ⟨a.num * b.num, a.den * b.den⟩

/-- Division, with the sign moved so the denominator stays positive. -/
def Q.div (a b : Q) : Q :=
  if 0 ≤ b.num then ⟨a.num * b.den, a.den * b.num⟩
  else ⟨-(a.num * b.den), -(a.den * b.num)⟩

instance : Add Q := ⟨Q.add⟩
instance : Sub Q := ⟨Q.sub⟩
instance : Mul Q := ⟨Q.mul⟩
instance : Div Q := ⟨Q.div⟩

instance : LE Q := ⟨fun a b => a.num * b.den ≤ b.num * a.den⟩
instance : LT Q := ⟨fun a b => a.num * b.den < b.num * a.den⟩

instance (a b : Q) : Decidable (a ≤ b) :=
  inferInstanceAs (Decidable (_ ≤ _))

instance (a b : Q) : Decidable (a < b) :=
  inferInstanceAs (Decidable (_ < _))

/-- Absolute value (the denominator of an embedding value is positive). -/
def Q.abs (a : Q) : Q := if a.num < 0 then ⟨-a.num, a.den⟩ else a

/-- Embeds a sample count into `Q`. -/
def Q.ofNat (n : Nat) : Q := ⟨(n : Int), 1⟩

/-- Floor of a rational with positive denominator. -/
def Q.floor (a : Q) : Int := Int.fdiv a.num a.den

/-- Models `int(np.round(q))`: numpy rounding, round-half-to-even. -/
def npRound (q : Q) : Int :=
  let f : Int := q.floor
  let frac : Q := q - ⟨f, 1⟩
  if frac < (1 : Q) / 2 then f
  else if (1 : Q) / 2 < frac then f + 1
  else if f % 2 = 0 then f else f + 1

/-- Embeds an integer into `Q` (the cast of the downsample factor back
into the rational comparisons). -/
def Q.ofInt (i : Int) : Q := ⟨i, 1⟩

/-- Models `np.isclose(a, b, rtol=0.01, atol=1e-8)` on finite inputs:
the numpy formula is `abs(a - b) <= atol + rtol * abs(b)`. -/
def npIsClose (a b : Q) : Bool :=
  decide (Q.abs (a - b) ≤ (1 : Q) / 100000000 + Q.abs b / 100)

/-- Zero-padded three-digit rendering of a number, as in a Python
format of the shape 03d. -/
def pad3 (n : Nat) : String :=
  if n < 10 then "00" ++ toString n
  else if n < 100 then "0" ++ toString n
  else toString n

/-- Channel name qualified by port, mirroring the source formatting of
port dash channel with the channel zero-padded to three digits. -/
def chanName (port_id : String) (idx : Nat) : String :=
  port_id ++ "-" ++ pad3 idx

/-- Insertion step of an insertion sort on naturals. -/
def insertNatSorted (x : Nat) : List Nat → List Nat
  | [] => [x]
  | y :: ys => if x ≤ y then x :: y :: ys else y :: insertNatSorted x ys

/-- Models `np.sort` on an integer vector. -/
def sortNat (l : List Nat) : List Nat :=
  l.foldr insertNatSorted []

/-- Fancy indexing `xs[is]` of numpy: `none` models the `IndexError`
raised on an out-of-bounds index. -/
def selectIdx {α : Type} (xs : List α) : List Nat → Option (List α)
  | [] => some []
  | i :: is =>
    match xs.get? i, selectIdx xs is with
    | some x, some ys => some (x :: ys)
    | _, _ => none

/-- Number of columns of a rectangular sample matrix (its `shape[1]`). -/
def matCols (m : List (List Q)) : Nat :=
  match m with
  | [] => 0
  | r :: _ => r.length

/-- Models `np.hstack` on a non-empty list of matrices with equal row
counts: concatenate each row along the time axis. -/
def hstack (ms : List (List (List Q))) : List (List Q) :=
  match ms with
  | [] => []
  | m :: rest => rest.foldl (fun acc n => List.zipWith (· ++ ·) acc n) m

/-- Lookup in an association list built by Python dict insertion order:
a later binding of the same key overwrites an earlier one. -/
def lookupLast (m : List (String × Nat)) (key : String) : Option Nat :=
  (m.reverse.find? (fun e => e.1 == key)).map (·.2)

/-- A row of the `EphysRawFile` catalog: path, acquisition software and
acquisition time (seconds, as a rational). -/
structure RawFile where
  file_path : String
  file_time : Q
  acq_software : String
deriving DecidableEq

/-- Primary key of an `EphysSession`: its declared time window in seconds. -/
structure EphysSessionKey where
  start_time : Q
  end_time : Q
deriving DecidableEq

/-- One entry of the amplifier-channel list of an Intan header.
`chPort` models the port-qualification field of the source (the empty
string models a falsy value there); `nativeChannelName` the native channel
name. -/
structure AmpChannel where
  chPort : String
  nativeChannelName : String
deriving DecidableEq

/-- The result of `intanrhdreader.load_file`: the header fields the engine
reads (`sample_rate`, `notch_filter_frequency`), the amplifier channel list
and the sample matrix (channels x samples), rows aligned with the channel
list. -/
structure IntanData where
  amplifier_channels : List AmpChannel
  amplifier_data : List (List Q)
  sample_rate : Q
  notch_filter_frequency : Option Q
deriving DecidableEq

/-- A row of `probe.ElectrodeConfig.Electrode` for the probe type of the
session: electrode ID and its acquisition-order channel index. -/
structure ElectrodeRec where
  electrode : Nat
  channel_idx : Nat
deriving DecidableEq

/-- Error taxonomy of the LFP engine, following the distinct raise sites of
the source: the duration assert and the downsample-ratio `ValueError` map to
`validationError`, the post-concatenation duration `ValueError` to
`consistencyError`, `OSError` on file load to `ioError`; `indexError` and
`keyError` model numpy/dict indexing failures; `queryError` models the
database operational error raised when the electrode restriction string is
malformed SQL (a one-element Python tuple renders with a trailing comma);
`internalError` is the unreachable empty-file-list case after fetch. -/
inductive LfpErr
  | validationError
  | ioError
  | consistencyError
  | indexError
  | keyError
  | queryError
  | internalError
deriving DecidableEq

/-- The tuple returned by `LFP.make_fetch` when it does not skip. -/
structure LfpFetchResult where
  file_paths : List String
  lfp_indices : List Nat
  port_id : String
  electrode_df : List ElectrodeRec
  duration : Q
deriving DecidableEq

/-- Raw files with `file_time BETWEEN start_time AND end_time` (inclusive,
as SQL BETWEEN). -/
def windowFiles (files : List RawFile) (k : EphysSessionKey) : List RawFile :=
  files.filter (fun f => decide (k.start_time ≤ f.file_time ∧ f.file_time ≤ k.end_time))

/-- Insertion step of the sort of raw files by acquisition time. -/
def insertFileSorted (f : RawFile) : List RawFile → List RawFile
  | [] => [f]
  | g :: gs => if f.file_time ≤ g.file_time then f :: g :: gs else g :: insertFileSorted f gs

/-- Models the `order_by file_time` of the catalog fetch. -/
def sortFilesByTime (files : List RawFile) : List RawFile :=
  files.foldr insertFileSorted []

/-- Python truthiness of the `used_electrodes` value: `None` and the empty
list are falsy, a non-empty list is truthy. -/
def usedTruthy : Option (List Nat) → Bool
  | some l => !l.isEmpty
  | none => false

/-- `LFP.MAX_DURATION_MINUTES`. -/
def MAX_DURATION_MINUTES : Q := 30

/-- `LFP.TARGET_SAMPLING_RATE` in Hz. -/
def TARGET_SAMPLING_RATE : Q := 2500

/-- `LFP.POWERLINE_NOISE_FREQ` in Hz. -/
def POWERLINE_NOISE_FREQ : Q := 60

/-- Embeds `LFP.make_fetch`: assert the declared duration is at most the
maximum (else ValidationError), fetch the raw files of the window (none
found models the skip path, `.ok none`), restrict the electrode
configuration to the used electrodes when that list is truthy, and return
the fetched tuple.  The restriction string is rendered from a Python tuple:
for a one-element list it carries a trailing comma (as in electrode IN
with a one-element tuple), malformed SQL that makes the fetch raise an
operational error; for two or more elements the SQL `electrode IN (...)`
keeps exactly the configuration rows whose electrode ID is in the list. -/
def make_fetch (files : List RawFile) (port_id : String) (used : Option (List Nat))
    (config : List ElectrodeRec) (k : EphysSessionKey) :
    Except LfpErr (Option LfpFetchResult) :=
  let duration := (k.end_time - k.start_time) / 60
  if duration ≤ MAX_DURATION_MINUTES then
    let matching := windowFiles files k
    if matching.isEmpty then .ok none
    else
      let equeryE : Except LfpErr (List ElectrodeRec) :=
        if usedTruthy used then
          if (used.getD []).length = 1 then .error .queryError
          else .ok (config.filter (fun e => decide (e.electrode ∈ used.getD [])))
        else .ok config
      match equeryE with
      | .error e => .error e
      | .ok equery =>
        .ok (some { file_paths := (sortFilesByTime matching).map (·.file_path),
                    lfp_indices := equery.map (·.channel_idx),
                    port_id := port_id,
                    electrode_df := equery,
                    duration := duration })
  else .error .validationError

/-- Header-derived context computed from the first file of the session in
`LFP.make_compute`. -/
structure HeaderCtx where
  sample_rate : Q
  powerline : Q
  factor : Int
  indices : List Nat
  channels : List String
  chanMap : List (String × Nat)
deriving DecidableEq

/-- Row indices of the sample matrix belonging to the given port: the
enumeration positions of the amplifier channels whose port matches. -/
def portIdxList (chs : List AmpChannel) (port_id : String) : List Nat :=
  (chs.enum.filter (fun p => p.2.chPort == port_id)).map (·.1)

/-- Embeds the first-file block of `LFP.make_compute`: read the header
sample rate and notch frequency (a falsy value falls back to the 60 Hz
default), compute the downsample factor as `int(np.round(sample_rate /
2500))` and validate it with `np.isclose(ratio, factor, rtol=0.01,
atol=1e-8)` (else ValidationError), then map the fetched channel indices
through the port row indices, sort them, select the channel names, and
build the channel-to-electrode mapping from the fetched electrode
configuration. -/
def processFirst (d : IntanData) (port_id : String) (lfpIdx : List Nat)
    (edf : List ElectrodeRec) : Except LfpErr HeaderCtx :=
  let sr := d.sample_rate
  let powerline : Q :=
    match d.notch_filter_frequency with
    | some f => if Q.eqv f 0 then POWERLINE_NOISE_FREQ else f
    | none => POWERLINE_NOISE_FREQ
  let factor := npRound (sr / TARGET_SAMPLING_RATE)
  if npIsClose (sr / TARGET_SAMPLING_RATE) (Q.ofInt factor) then
    match selectIdx (portIdxList d.amplifier_channels port_id) lfpIdx with
    | none => .error .indexError
    | some mapped =>
      let indices := sortNat mapped
      let channelsAll :=
        (d.amplifier_channels.filter (fun ch => !(ch.chPort == ""))).map
          (·.nativeChannelName)
      match selectIdx channelsAll indices with
      | none => .error .indexError
      | some channels =>
        let chanMap := edf.map (fun e => (chanName port_id e.channel_idx, e.electrode))
        .ok { sample_rate := sr, powerline := powerline, factor := factor,
              indices := indices, channels := channels, chanMap := chanMap }
  else .error .validationError

/-- Observable events of one LFP engine run: a raw-file load, a notch
filtering of one channel, a decimation of one channel by the given factor. -/
inductive Ev
  | load (p : String)
  | filt
  | decim (factor : Int)
deriving DecidableEq

/-- The filtering and decimation events of a trace. -/
def filtEvents (evs : List Ev) : List Ev :=
  evs.filter (fun e => match e with
    | .filt => true
    | .decim _ => true
    | .load _ => false)

/-- The external scipy kernels, opaque to the engine: the zero-phase notch
filter (powerline frequency, sampling rate, signal) and the FIR decimator
(factor, signal). -/
structure NumericOps where
  filtfilt : Q → Q → List Q → List Q
  decimate : Nat → List Q → List Q

/-- The file-loading loop of `LFP.make_compute`: load each file in order
(an unreadable file is fatal, IOError), process the first file header, slice
the selected rows of every file, and accumulate the slices together with the
total sample count.  Returns the event trace of the loop. -/
def loadFiles (store : String → Except Unit IntanData) (port_id : String)
    (lfpIdx : List Nat) (edf : List ElectrodeRec) :
    List String → Option (HeaderCtx × List (List (List Q)) × Nat) →
    List Ev × Except LfpErr (HeaderCtx × List (List (List Q)) × Nat)
  | [], acc =>
    ([], match acc with
      | some (ctx, slices, cols) => .ok (ctx, slices.reverse, cols)
      | none => .error .internalError)
  | p :: ps, acc =>
    match store p with
    | .error _ => ([Ev.load p], .error .ioError)
    | .ok d =>
      let next : Except LfpErr (HeaderCtx × List (List (List Q)) × Nat) :=
        match acc with
        | none =>
          match processFirst d port_id lfpIdx edf with
          | .error e => .error e
          | .ok ctx =>
            match selectIdx d.amplifier_data ctx.indices with
            | none => .error .indexError
            | some sl => .ok (ctx, [sl], matCols d.amplifier_data)
        | some (ctx, slices, cols) =>
          match selectIdx d.amplifier_data ctx.indices with
          | none => .error .indexError
          | some sl => .ok (ctx, sl :: slices, cols + matCols d.amplifier_data)
      match next with
      | .error e => ([Ev.load p], .error e)
      | .ok acc2 =>
        let r := loadFiles store port_id lfpIdx edf ps (some acc2)
        (Ev.load p :: r.1, r.2)

/-- The value computed by `LFP.make_compute` on success. -/
structure ComputeOut where
  all_lfps : List (List Q)
  channels : List String
  chanMap : List (String × Nat)
  electrode_df : List ElectrodeRec
deriving DecidableEq

/-- Embeds `LFP.make_compute`: load and slice all files, check the
concatenated trace duration against the declared one (more than half a
minute apart is fatal, ConsistencyError), then notch-filter and decimate
each selected channel. -/
def make_compute (ops : NumericOps) (store : String → Except Unit IntanData)
    (fr : LfpFetchResult) : List Ev × Except LfpErr ComputeOut :=
  match loadFiles store fr.port_id fr.lfp_indices fr.electrode_df fr.file_paths none with
  | (evs, .error e) => (evs, .error e)
  | (evs, .ok (ctx, slices, cols)) =>
    let traceDuration : Q := Q.ofNat cols / ctx.sample_rate / 60
    if Q.abs (traceDuration - fr.duration) > (1 : Q) / 2 then (evs, .error .consistencyError)
    else
      let fullLfp := hstack slices
      let pairs := ctx.channels.zip fullLfp
      let all_lfps := pairs.map (fun pr =>
        ops.decimate ctx.factor.toNat (ops.filtfilt ctx.powerline ctx.sample_rate pr.2))
      (evs ++ (pairs.map (fun _ => [Ev.filt, Ev.decim ctx.factor])).flatten,
       .ok { all_lfps := all_lfps, channels := ctx.channels,
             chanMap := ctx.chanMap, electrode_df := fr.electrode_df })

/-- The master row inserted by `LFP.make_insert`: the stored sampling rate
and the wall-clock execution duration (hours). -/
structure LfpRecord where
  lfp_sampling_rate : Q
  execution_duration : Q
deriving DecidableEq

/-- One `LFP.Trace` part row: the electrode the trace is associated with and
the trace itself. -/
structure TraceRow where
  electrode : Nat
  lfp : List Q
deriving DecidableEq

/-- The per-channel insertion loop of `LFP.make_insert`: one trace row per
(channel, lfp) pair, the electrode looked up in the channel-to-electrode
mapping; a missing key is a KeyError (`none`). -/
def buildTraces (chanMap : List (String × Nat)) :
    List (String × List Q) → Option (List TraceRow)
  | [] => some []
  | cl :: rest =>
    match lookupLast chanMap cl.1, buildTraces chanMap rest with
    | some e, some ts => some ({ electrode := e, lfp := cl.2 } :: ts)
    | _, _ => none

/-- Embeds `LFP.make_insert`: the master row stores `TARGET_SAMPLING_RATE`
as the sampling rate together with the execution duration, and one trace
row per (channel, lfp) pair is inserted with the electrode obtained from the
channel-to-electrode mapping (a missing key is a KeyError). -/
def make_insert (out : ComputeOut) (execDur : Q) :
    Except LfpErr (LfpRecord × List TraceRow) :=
  match buildTraces out.chanMap (out.channels.zip out.all_lfps) with
  | some traces =>
    .ok ({ lfp_sampling_rate := TARGET_SAMPLING_RATE, execution_duration := execDur },
         traces)
  | none => .error .keyError

/-- One full LFP engine run for a session: `make_fetch`, then, when not
skipped, `make_compute` and `make_insert`.  Returns the event trace and
either the error, a skip (`.ok none`), or the inserted rows. -/
def lfp_make (ops : NumericOps) (store : String → Except Unit IntanData)
    (files : List RawFile) (port_id : String) (used : Option (List Nat))
    (config : List ElectrodeRec) (execDur : Q) (k : EphysSessionKey) :
    List Ev × Except LfpErr (Option (LfpRecord × List TraceRow)) :=
  match make_fetch files port_id used config k with
  | .error e => ([], .error e)
  | .ok none => ([], .ok none)
  | .ok (some fr) =>
    match make_compute ops store fr with
    | (evs, .error e) => (evs, .error e)
    | (evs, .ok out) =>
      match make_insert out execDur with
      | .error e => (evs, .error e)
      | .ok res => (evs, .ok (some res))

/-- A table-level population step for `LFP`: the session key is recorded as
done only when the engine actually produced a result (DataJoint inserts
nothing on a skip or an error). -/
def lfpRunStep (ops : NumericOps) (store : String → Except Unit IntanData)
    (files : List RawFile) (port_id : String) (used : Option (List Nat))
    (config : List ElectrodeRec) (execDur : Q)
    (done : List EphysSessionKey) (k : EphysSessionKey) : List EphysSessionKey :=
  match (lfp_make ops store files port_id used config execDur k).2 with
  | .ok (some _) => done ++ [k]
  | _ => done

/-- The pending-work set of the `LFP` table: eligible sessions minus the
already-populated ones. -/
def lfpPending (eligible done : List EphysSessionKey) : List EphysSessionKey :=
  eligible.filter (fun s => decide (s ∉ done))

/-- The `used_electrodes` normalization of `PreProcessing.make`: a value
that is None or has zero length becomes the full range of electrodes. -/
def preprocessUsedElectrodes (used : Option (List Nat)) (n : Nat) : List Nat :=
  match used with
  | some l => if l.isEmpty then List.range n else l
  | none => List.range n

/-- The unused-electrode list of `PreProcessing.make`. -/
def preprocessUnusedElectrodes (used : Option (List Nat)) (n : Nat) : List Nat :=
  (List.range n).filter (fun e => decide (e ∉ preprocessUsedElectrodes used n))

/-- The channel-removal step of `PreProcessing.make`: when the
unused-electrode list is truthy, the channel IDs of the unused electrodes
(positional rows of the electrode frame, formatted with the port) are
removed from the recording channel list; otherwise the recording is left
as it is. -/
def preprocessRemoveChannels (port_id : String) (edf : List ElectrodeRec)
    (used : Option (List Nat)) (chans : List String) :
    Except LfpErr (List String) :=
  let unused := preprocessUnusedElectrodes used edf.length
  if unused.isEmpty then .ok chans
  else
    match selectIdx edf unused with
    | none => .error .indexError
    | some rows =>
      let ids := rows.map (fun r => chanName port_id r.channel_idx)
      .ok (chans.filter (fun c => decide (c ∉ ids)))

/-- A published artifact directory: the content hash it was produced under,
its bytes, and whether its completion marker is present. -/
structure Artifact where
  contentHash : Nat
  bytes : List Nat
  complete : Bool
deriving DecidableEq

/-- The processed-data file store, keyed by output path; a later binding of
the same path shadows an earlier one. -/
abbrev FileStore := List (String × Artifact)

/-- The artifact currently visible at a path. -/
def storeGet (st : FileStore) (p : String) : Option Artifact :=
  (st.find? (fun e => e.1 == p)).map (·.2)

/-- Publish an artifact at a path. -/
def storePut (st : FileStore) (p : String) (a : Artifact) : FileStore :=
  (p, a) :: st

/-- Modelled from the spec: the decorator `memoized_result` of
`element_interface.utils` is not part of src/.  Per the memoization
contract of the spec, before invoking the computation it checks whether a
complete artifact already exists at the deterministic output path for the
exact parameter content hash; if so the execution is skipped and the
artifact reused unconditionally; otherwise the computation runs and the
complete artifact is published.  Returns the new store and the number of
external invocations performed (0 or 1). -/
def memoized_result (h : Nat) (outDir : String) (compute : Unit → List Nat)
    (st : FileStore) : FileStore × Nat :=
  match storeGet st outDir with
  | some a =>
    if a.complete && a.contentHash == h then (st, 0)
    else (storePut st outDir { contentHash := h, bytes := compute (), complete := true }, 1)
  | none =>
    (storePut st outDir { contentHash := h, bytes := compute (), complete := true }, 1)

/-- Embeds `SIClustering.make`: run the external sorter through
`memoized_result` keyed on the sorting-parameter content hash and the
sorting output directory, then insert the stage row for the task.  Returns
the new store, the new stage table, and the number of external sorter
invocations performed. -/
def siClustering_make (h : Nat) (outDir : String) (runSorter : Unit → List Nat)
    (st : FileStore) (tbl : List Nat) (task : Nat) : FileStore × List Nat × Nat :=
  let r := memoized_result h outDir runSorter st
  (r.1, tbl ++ [task], r.2)

/-- A row of `ClusteringParamSet`. -/
structure ParamRow where
  paramset_idx : Int
  clustering_method : String
  paramset_desc : String
  param_set_hash : Nat
deriving DecidableEq

/-- The two DataJointError raise sites of `insert_new_params`. -/
inductive DJError
  | duplicateHash
  | duplicateIdx
deriving DecidableEq

/-- The default paramset index of `insert_new_params`: the maximum existing
index (with a falsy maximum replaced by 0) plus one. -/
def maxParamsetIdx (tbl : List ParamRow) : Int :=
  match tbl.map (·.paramset_idx) with
  | [] => 0
  | x :: xs => let m := xs.foldl max x; if m = 0 then 0 else m

/-- Embeds `ClusteringParamSet.insert_new_params`.  The content hash is a
deterministic function of the parameters and the clustering method,
supplied as the external `dict_to_uuid` collaborator.  If a row with the
same hash exists: same index is a no-op, different index is a conflict
error.  Otherwise a reused index is an error, and a fresh row is inserted
only when both checks pass. -/
def insert_new_params (hashFn : List (String × Int) → String → Nat)
    (tbl : List ParamRow) (clustering_method : String) (paramset_desc : String)
    (params : List (String × Int)) (idxOpt : Option Int) :
    Except DJError (List ParamRow) :=
  let paramset_idx :=
    match idxOpt with
    | some i => i
    | none => maxParamsetIdx tbl + 1
  let h := hashFn params clustering_method
  match tbl.find? (fun r => r.param_set_hash == h) with
  | some row =>
    if row.paramset_idx = paramset_idx then .ok tbl
    else .error .duplicateHash
  | none =>
    if tbl.any (fun r => r.paramset_idx == paramset_idx) then .error .duplicateIdx
    else .ok (tbl ++ [{ paramset_idx := paramset_idx,
                        clustering_method := clustering_method,
                        paramset_desc := paramset_desc,
                        param_set_hash := h }])

/-- State of the staged sorting pipeline over task keys: the tasks eligible
for PreProcessing (valid parameters, session info present), and the rows of
the `PreProcessing`, `SIClustering`, `PostProcessing` and `ephys.Clustering`
tables. -/
structure PipeState where
  eligible : List Nat
  preProcessed : List Nat
  sortedTasks : List Nat
  postProcessed : List Nat
  clusteringDone : List Nat
deriving DecidableEq

/-- Pending work of `PreProcessing`: its key source (eligible tasks minus
the `ephys.Clustering` completion records) minus its own rows. -/
def pendingPre (s : PipeState) : List Nat :=
  s.eligible.filter (fun t =>
    decide (t ∉ s.clusteringDone) && decide (t ∉ s.preProcessed))

/-- Pending work of `SIClustering` (the Sorting stage): its key source is
`PreProcessing`, minus its own rows. -/
def pendingSorting (s : PipeState) : List Nat :=
  s.preProcessed.filter (fun t => decide (t ∉ s.sortedTasks))

/-- Pending work of `PostProcessing`: its key source is `SIClustering`,
minus its own rows. -/
def pendingPost (s : PipeState) : List Nat :=
  s.sortedTasks.filter (fun t => decide (t ∉ s.postProcessed))

/-- One `populate` step of the orchestrator: a stage runs `make` on one of
its pending keys and inserts the corresponding rows.  `PostProcessing.make`
additionally inserts the task into `ephys.Clustering` (the completion
record). -/
inductive PipeStep : PipeState → PipeState → Prop
  | pre (s : PipeState) (t : Nat) (h : t ∈ pendingPre s) :
      PipeStep s { s with preProcessed := t :: s.preProcessed }
  | sort (s : PipeState) (t : Nat) (h : t ∈ pendingSorting s) :
      PipeStep s { s with sortedTasks := t :: s.sortedTasks }
  | post (s : PipeState) (t : Nat) (h : t ∈ pendingPost s) :
      PipeStep s { s with postProcessed := t :: s.postProcessed,
                          clusteringDone := t :: s.clusteringDone }

/-- The referential invariants of the pipeline tables: a PostProcessing row
presupposes the Clustering completion record and a Sorting row, and a
Sorting row presupposes a PreProcessing row. -/
def PipeInv (s : PipeState) : Prop :=
  (∀ t ∈ s.postProcessed, t ∈ s.clusteringDone) ∧
  (∀ t ∈ s.postProcessed, t ∈ s.sortedTasks) ∧
  (∀ t ∈ s.sortedTasks, t ∈ s.preProcessed)

/-- Concrete numeric kernels for evaluating the engine on closed inputs:
identity filtering and identity decimation. -/
def opsId : NumericOps :=
  { filtfilt := fun _ _ x => x, decimate := fun _ x => x }

/-- A one-file catalog: a single Intan file at time 0. -/
def files0 : List RawFile :=
  [{ file_path := "f0", file_time := 0, acq_software := "Intan" }]

/-- A session window containing exactly the time 0. -/
def k0 : EphysSessionKey := { start_time := 0, end_time := 0 }

/-- One amplifier channel on port A. -/
def amp0 : AmpChannel := { chPort := "A", nativeChannelName := "A-000" }

/-- A one-electrode configuration: electrode 0 on channel 0. -/
def cfg1 : List ElectrodeRec := [{ electrode := 0, channel_idx := 0 }]

/-- A three-electrode configuration. -/
def cfg3 : List ElectrodeRec :=
  [{ electrode := 0, channel_idx := 0 },
   { electrode := 1, channel_idx := 1 },
   { electrode := 2, channel_idx := 2 }]

/-- File content with a 2525 Hz sample rate and an empty sample row: the
downsample ratio 1.01 is accepted by the 1 percent check with factor 1. -/
def d2525 : IntanData :=
  { amplifier_channels := [amp0], amplifier_data := [[]],
    sample_rate := 2525, notch_filter_frequency := none }

/-- A store holding `d2525` at path f0. -/
def store2525 : String → Except Unit IntanData :=
  fun p => if p == "f0" then .ok d2525 else .error ()

/-- A sample rate slightly beyond 1 percent of an integer ratio but inside
the extra absolute tolerance 1e-8 of `np.isclose`: the ratio is
1.01 + 5e-9, namely 202000001/200000000. -/
def srEdge : Q := ⟨202000001, 80000⟩

/-- File content with sample rate `srEdge` and an empty sample row. -/
def dEdge : IntanData :=
  { amplifier_channels := [amp0], amplifier_data := [[]],
    sample_rate := srEdge, notch_filter_frequency := none }

/-- A store holding `dEdge` at path f0. -/
def storeEdge : String → Except Unit IntanData :=
  fun p => if p == "f0" then .ok dEdge else .error ()

/-- File content with a 29000 Hz sample rate: the ratio 11.6 is rejected by
the 1 percent check. -/
def d29000 : IntanData :=
  { amplifier_channels := [amp0], amplifier_data := [[]],
    sample_rate := 29000, notch_filter_frequency := none }

/-- A store holding `d29000` at path f0. -/
def store29000 : String → Except Unit IntanData :=
  fun p => if p == "f0" then .ok d29000 else .error ()

/-- The fetch result of the one-file, one-electrode session with a declared
duration of 0 minutes. -/
def fr0 : LfpFetchResult :=
  { file_paths := ["f0"], lfp_indices := [0], port_id := "A",
    electrode_df := cfg1, duration := 0 }

/-- Same fetch result but with a declared duration of 12 minutes, far from
the 0 minutes of data actually present. -/
def frBadDur : LfpFetchResult :=
  { file_paths := ["f0"], lfp_indices := [0], port_id := "A",
    electrode_df := cfg1, duration := 12 }

/-- The header context computed from `d2525`. -/
def ctx2525 : HeaderCtx :=
  { sample_rate := 2525, powerline := 60, factor := 1, indices := [0],
    channels := ["A-000"], chanMap := [("A-000", 0)] }

/-- A session window (100 s to 160 s) matching no file of `files0`. -/
def kFar : EphysSessionKey := { start_time := 100, end_time := 160 }

/-- A concrete successful compute output: one channel, empty trace. -/
def out0 : ComputeOut :=
  { all_lfps := [[]], channels := ["A-000"], chanMap := [("A-000", 0)],
    electrode_df := cfg1 }

/-- A constant content-hash function for closed evaluation. -/
def hf0 : List (String × Int) → String → Nat := fun _ _ => 42

/-- The existing parameter-set row of the closed `insert_new_params` runs. -/
def row0 : ParamRow :=
  { paramset_idx := 1, clustering_method := "kilosort2",
    paramset_desc := "d", param_set_hash := 42 }

/-- A one-row parameter-set table. -/
def tbl0 : List ParamRow := [row0]

/-- A complete artifact published under hash 7. -/
def art7 : Artifact := { contentHash := 7, bytes := [1, 2], complete := true }

/-- A store with the complete artifact `art7` at the sorting output path. -/
def stMemo : FileStore := [("out", art7)]

/-- A pipeline state in which task 0 has passed through every stage. -/
def sAll : PipeState :=
  { eligible := [0], preProcessed := [0], sortedTasks := [0],
    postProcessed := [0], clusteringDone := [0] }

/-- Negation of the rational order, transported from the integers. -/
theorem Q.not_le {a b : Q} : ¬ (a ≤ b) ↔ b < a := Int.not_le

/-- The load loop emits only load events: no filtering or decimation
happens while files are being read. -/
theorem loadFiles_filtEvents (store : String → Except Unit IntanData)
    (port_id : String) (lfpIdx : List Nat) (edf : List ElectrodeRec) :
    ∀ (ps : List String) (acc : Option (HeaderCtx × List (List (List Q)) × Nat)),
      filtEvents (loadFiles store port_id lfpIdx edf ps acc).1 = [] := by
  intro ps
  induction ps with
  | nil => intro acc; rfl
  | cons p ps ih =>
    intro acc
    unfold loadFiles
    cases store p with
    | error e => rfl
    | ok d =>
      dsimp only
      split
      · rfl
      · simpa [filtEvents, List.filter] using ih _

/-- `buildTraces` produces exactly one row per input pair. -/
theorem buildTraces_length (chanMap : List (String × Nat)) :
    ∀ (l : List (String × List Q)) (ts : List TraceRow),
      buildTraces chanMap l = some ts → ts.length = l.length := by
  intro l
  induction l with
  | nil => intro ts h; cases h; rfl
  | cons cl rest ih =>
    intro ts h
    unfold buildTraces at h
    split at h
    · cases h
      simp only [List.length_cons]
      next heq1 heq2 => exact congrArg (· + 1) (ih _ heq2)
    · cases h

/-- C4 (confirmed): a session whose declared duration (end minus start, in
minutes) exceeds the fixed 30-minute maximum is rejected by the LFP engine
with a ValidationError, and the event trace is empty: the failure happens
before any raw file is loaded and before any file I/O. -/
theorem lfp_duration_gate (ops : NumericOps) (store : String → Except Unit IntanData)
    (files : List RawFile) (port_id : String) (used : Option (List Nat))
    (config : List ElectrodeRec) (execDur : Q) (k : EphysSessionKey)
    (h : MAX_DURATION_MINUTES < (k.end_time - k.start_time) / 60) :
    lfp_make ops store files port_id used config execDur k
      = ([], .error .validationError) := by
  unfold lfp_make make_fetch
  rw [if_neg (Q.not_le.mpr h)]

/-- Witness for C4: a 31-minute session is rejected with an empty trace. -/
theorem lfp_duration_gate_witness :
    lfp_make opsId store2525 files0 "A" none cfg1 0
      { start_time := 0, end_time := 1860 } = ([], .error .validationError) :=
  lfp_duration_gate opsId store2525 files0 "A" none cfg1 0
    { start_time := 0, end_time := 1860 } (by decide)

/-- C6 (confirmed): a session window containing zero cataloged raw files is
a skip, not an error: the engine returns without error, inserts nothing,
and the session stays in the pending set of the LFP table (eligible for
retry on a later invocation). -/
theorem lfp_zero_files_skip (ops : NumericOps) (store : String → Except Unit IntanData)
    (files : List RawFile) (port_id : String) (used : Option (List Nat))
    (config : List ElectrodeRec) (execDur : Q) (k : EphysSessionKey)
    (eligible done : List EphysSessionKey)
    (hdur : (k.end_time - k.start_time) / 60 ≤ MAX_DURATION_MINUTES)
    (hwin : windowFiles files k = []) :
    lfp_make ops store files port_id used config execDur k = ([], .ok none) ∧
    lfpRunStep ops store files port_id used config execDur done k = done ∧
    lfpPending eligible (lfpRunStep ops store files port_id used config execDur done k)
      = lfpPending eligible done := by
  have h1 : lfp_make ops store files port_id used config execDur k = ([], .ok none) := by
    unfold lfp_make make_fetch
    rw [hwin, if_pos hdur]
    rfl
  have h2 : lfpRunStep ops store files port_id used config execDur done k = done := by
    unfold lfpRunStep
    rw [h1]
  exact ⟨h1, h2, by rw [h2]⟩

/-- Witness for C6: a 1-minute session whose window matches no file of the
catalog is skipped without error and the done set is unchanged. -/
theorem lfp_zero_files_skip_witness :
    lfp_make opsId store2525 files0 "A" none cfg1 0 kFar = ([], .ok none) ∧
    lfpRunStep opsId store2525 files0 "A" none cfg1 0 [] kFar = [] ∧
    lfpPending [kFar] (lfpRunStep opsId store2525 files0 "A" none cfg1 0 [] kFar)
      = lfpPending [kFar] [] :=
  lfp_zero_files_skip opsId store2525 files0 "A" none cfg1 0 kFar [kFar] []
    (by decide) (by decide)

/-- C5 (confirmed): after concatenation the engine computes the trace
duration as total samples divided by the sampling rate divided by 60, and
fails with a ConsistencyError exactly when that duration differs from the
declared session duration by more than half a minute; within the tolerance
the computation succeeds. -/
theorem lfp_trace_duration_check (ops : NumericOps)
    (store : String → Except Unit IntanData) (fr : LfpFetchResult)
    (evs : List Ev) (ctx : HeaderCtx) (slices : List (List (List Q))) (cols : Nat)
    (h : loadFiles store fr.port_id fr.lfp_indices fr.electrode_df fr.file_paths none
          = (evs, .ok (ctx, slices, cols))) :
    ((make_compute ops store fr).2 = .error .consistencyError ↔
        Q.abs (Q.ofNat cols / ctx.sample_rate / 60 - fr.duration) > (1 : Q) / 2) ∧
    (¬ Q.abs (Q.ofNat cols / ctx.sample_rate / 60 - fr.duration) > (1 : Q) / 2 →
        ∃ out, (make_compute ops store fr).2 = .ok out) := by
  have hbody : make_compute ops store fr =
      (if Q.abs (Q.ofNat cols / ctx.sample_rate / 60 - fr.duration) > (1 : Q) / 2
       then (evs, .error .consistencyError)
       else (evs ++ ((ctx.channels.zip (hstack slices)).map
                (fun _ => [Ev.filt, Ev.decim ctx.factor])).flatten,
             .ok { all_lfps := (ctx.channels.zip (hstack slices)).map (fun pr =>
                      ops.decimate ctx.factor.toNat
                        (ops.filtfilt ctx.powerline ctx.sample_rate pr.2)),
                   channels := ctx.channels, chanMap := ctx.chanMap,
                   electrode_df := fr.electrode_df })) := by
    unfold make_compute
    rw [h]
  by_cases hc : Q.abs (Q.ofNat cols / ctx.sample_rate / 60 - fr.duration) > (1 : Q) / 2
  · rw [hbody, if_pos hc]
    exact ⟨⟨fun _ => hc, fun _ => rfl⟩, fun hn => absurd hc hn⟩
  · rw [hbody, if_neg hc]
    refine ⟨⟨fun hcontra => ?_, fun hcontra => absurd hcontra hc⟩, fun _ => ⟨_, rfl⟩⟩
    exact absurd hcontra (by simp)

/-- Witness for C5: with 0 samples of data, a declared duration of 12
minutes fails the consistency check and a declared duration of 0 minutes
passes it. -/
theorem lfp_trace_duration_check_witness :
    (make_compute opsId store2525 frBadDur).2 = .error .consistencyError ∧
    ∃ out, (make_compute opsId store2525 fr0).2 = .ok out := by
  constructor
  · exact (lfp_trace_duration_check opsId store2525 frBadDur
      [Ev.load "f0"] ctx2525 [[[]]] 0 rfl).1.mpr (by decide)
  · exact (lfp_trace_duration_check opsId store2525 fr0
      [Ev.load "f0"] ctx2525 [[[]]] 0 rfl).2 (by decide)

/-- C1 (corrected): the engine selects the downsample factor
`int(np.round(sample_rate / 2500))` (numpy rounding, half to even), and the
ratio check raises a ValidationError exactly when `np.isclose(ratio,
factor, rtol=0.01, atol=1e-8)` fails, i.e. when the distance of the ratio
from the rounded factor exceeds 1e-8 plus one percent of the factor (the
claim omits the absolute-tolerance term 1e-8); on that failure no filtering
or decimation has been performed. -/
theorem lfp_downsample_factor_isclose
    (d : IntanData) (port_id : String) (lfpIdx : List Nat) (edf : List ElectrodeRec)
    (ops : NumericOps) (store : String → Except Unit IntanData) (fr : LfpFetchResult) :
    (∀ ctx, processFirst d port_id lfpIdx edf = .ok ctx →
        ctx.factor = npRound (d.sample_rate / TARGET_SAMPLING_RATE)) ∧
    (processFirst d port_id lfpIdx edf = .error .validationError ↔
        ¬ (Q.abs (d.sample_rate / TARGET_SAMPLING_RATE -
              Q.ofInt (npRound (d.sample_rate / TARGET_SAMPLING_RATE))) ≤
            (1 : Q) / 100000000 +
              Q.abs (Q.ofInt (npRound (d.sample_rate / TARGET_SAMPLING_RATE))) / 100)) ∧
    ((make_compute ops store fr).2 = .error .validationError →
        filtEvents (make_compute ops store fr).1 = []) := by
  refine ⟨?_, ?_, ?_⟩
  · intro ctx h
    unfold processFirst at h
    dsimp only at h
    split at h
    · split at h
      · cases h
      · split at h
        · cases h
        · cases h
          rfl
    · cases h
  · unfold processFirst npIsClose
    dsimp only
    split
    · next hcond =>
      rw [decide_eq_true_eq] at hcond
      constructor
      · intro h
        split at h
        · cases h
        · split at h
          · cases h
          · cases h
      · intro h
        exact absurd hcond h
    · next hcond =>
      rw [decide_eq_true_eq] at hcond
      exact ⟨fun _ => hcond, fun _ => rfl⟩
  · intro h
    unfold make_compute at h ⊢
    cases hl : loadFiles store fr.port_id fr.lfp_indices fr.electrode_df fr.file_paths none with
    | mk evs r =>
      rw [hl] at h
      have hev : evs = (loadFiles store fr.port_id fr.lfp_indices fr.electrode_df
          fr.file_paths none).1 := by rw [hl]
      cases r with
      | error e =>
        dsimp only
        rw [hev]
        exact loadFiles_filtEvents store fr.port_id fr.lfp_indices fr.electrode_df
          fr.file_paths none
      | ok acc =>
        obtain ⟨ctx, slices, cols⟩ := acc
        dsimp only at h ⊢
        by_cases hc : Q.abs (Q.ofNat cols / ctx.sample_rate / 60 - fr.duration) > (1 : Q) / 2
        · rw [if_pos hc]
          dsimp only
          rw [hev]
          exact loadFiles_filtEvents store fr.port_id fr.lfp_indices fr.electrode_df
            fr.file_paths none
        · rw [if_neg hc] at h
          simp at h

/-- Witness for C1: for the 2525 Hz header the selected factor is the
numpy rounding of the ratio, and the 29000 Hz header is rejected with no
filtering or decimation event in the trace. -/
theorem lfp_downsample_factor_isclose_witness :
    ctx2525.factor = npRound (d2525.sample_rate / TARGET_SAMPLING_RATE) ∧
    filtEvents (make_compute opsId store29000 fr0).1 = [] :=
  ⟨(lfp_downsample_factor_isclose d2525 "A" [0] cfg1 opsId store29000 fr0).1
      ctx2525 rfl,
   (lfp_downsample_factor_isclose d2525 "A" [0] cfg1 opsId store29000 fr0).2.2 rfl⟩

/-- Counterexample for C1: a header sample rate of 2525.0000125 Hz has
ratio 1.01 + 5e-9, which is farther from the rounded factor 1 than one
percent of the factor, yet the engine proceeds and produces a result
instead of raising a ValidationError, because `np.isclose` adds the
absolute tolerance 1e-8 to the one-percent bound. -/
theorem lfp_ratio_one_percent_counterexample :
    (lfp_make opsId storeEdge files0 "A" none cfg1 0 k0).2 =
      .ok (some ({ lfp_sampling_rate := 2500, execution_duration := 0 },
                 [{ electrode := 0, lfp := [] }])) ∧
    ¬ (Q.abs (srEdge / TARGET_SAMPLING_RATE -
          Q.ofInt (npRound (srEdge / TARGET_SAMPLING_RATE))) ≤
        Q.ofInt (npRound (srEdge / TARGET_SAMPLING_RATE)) / 100) :=
  ⟨rfl, by decide⟩

/-- C8 (corrected): when `used_electrodes` is a truthy list of at least two
elements, the fetch restricts the electrode configuration to the rows whose
electrode ID is in the list; an ID absent from the configuration is
silently dropped (the result is the intersection) and no error is raised.
A one-element list instead always fails the fetch with the operational
error of the malformed trailing-comma restriction string, regardless of
whether its ID is present. -/
theorem used_electrode_restriction
    (files : List RawFile) (port_id : String) (config : List ElectrodeRec)
    (k : EphysSessionKey) (l : List Nat)
    (hdur : (k.end_time - k.start_time) / 60 ≤ MAX_DURATION_MINUTES)
    (hwin : ¬ (windowFiles files k).isEmpty = true)
    (hne : l ≠ []) (hlen : l.length ≠ 1) :
    (∃ fr, make_fetch files port_id (some l) config k = .ok (some fr) ∧
      fr.electrode_df = config.filter (fun e => decide (e.electrode ∈ l)) ∧
      fr.lfp_indices = (config.filter (fun e => decide (e.electrode ∈ l))).map (·.channel_idx) ∧
      ∀ x ∈ l, x ∉ config.map (·.electrode) → x ∉ fr.electrode_df.map (·.electrode)) ∧
    (∀ x : Nat, make_fetch files port_id (some [x]) config k = .error .queryError) := by
  have htruthy : usedTruthy (some l) = true := by
    cases l with
    | nil => exact absurd rfl hne
    | cons a as => rfl
  constructor
  · refine ⟨{ file_paths := (sortFilesByTime (windowFiles files k)).map (·.file_path),
              lfp_indices := (config.filter (fun e => decide (e.electrode ∈ l))).map (·.channel_idx),
              port_id := port_id,
              electrode_df := config.filter (fun e => decide (e.electrode ∈ l)),
              duration := (k.end_time - k.start_time) / 60 }, ?_, rfl, rfl, ?_⟩
    · unfold make_fetch
      rw [if_pos hdur, if_neg hwin, htruthy, if_pos rfl]
      dsimp only [Option.getD]
      rw [if_neg hlen]
    · intro x _ hnot hmem
      apply hnot
      rw [List.mem_map] at hmem
      obtain ⟨e, he, hex⟩ := hmem
      rw [List.mem_filter] at he
      exact List.mem_map.mpr ⟨e, he.1, hex⟩
  · intro x
    unfold make_fetch
    rw [if_pos hdur, if_neg hwin]
    rfl

/-- Witness for C8: requesting electrodes 1 and 5 against a configuration
holding 0, 1, 2 succeeds with the mapping restricted to electrode 1, while
requesting the single electrode 5 fails with the malformed-restriction
operational error. -/
theorem used_electrode_restriction_witness :
    (∃ fr, make_fetch files0 "A" (some [1, 5]) cfg3 k0 = .ok (some fr) ∧
      fr.electrode_df = cfg3.filter (fun e => decide (e.electrode ∈ [1, 5])) ∧
      fr.lfp_indices = (cfg3.filter (fun e => decide (e.electrode ∈ [1, 5]))).map (·.channel_idx) ∧
      ∀ x ∈ [1, 5], x ∉ cfg3.map (·.electrode) → x ∉ fr.electrode_df.map (·.electrode)) ∧
    make_fetch files0 "A" (some [5]) cfg3 k0 = .error .queryError :=
  ⟨(used_electrode_restriction files0 "A" cfg3 k0 [1, 5] (by decide) (by decide)
      (by decide) (by decide)).1,
   (used_electrode_restriction files0 "A" cfg3 k0 [1, 5] (by decide) (by decide)
      (by decide) (by decide)).2 5⟩

/-- Counterexample for C8: with used electrodes 1 and 5 and a configuration
holding only 0, 1, 2, the fetch succeeds (no fatal error) and the absent ID
5 has been silently dropped from the resulting mapping. -/
theorem absent_electrode_silently_dropped_counterexample :
    make_fetch files0 "A" (some [1, 5]) cfg3 k0 =
      .ok (some { file_paths := ["f0"], lfp_indices := [1], port_id := "A",
                  electrode_df := [{ electrode := 1, channel_idx := 1 }],
                  duration := (k0.end_time - k0.start_time) / 60 }) ∧
    5 ∉ cfg3.map (·.electrode) :=
  ⟨rfl, by decide⟩

/-- C9 (corrected): on success, the master row of `LFP.make_insert` always
stores the fixed `TARGET_SAMPLING_RATE` (2500 Hz) as `lfp_sampling_rate` —
not the realized rate `sample_rate / downsample_factor` — together with the
execution duration, and exactly one trace row per (channel, trace) pair. -/
theorem lfp_insert_target_rate (out : ComputeOut) (execDur : Q)
    (rec : LfpRecord) (traces : List TraceRow)
    (h : make_insert out execDur = .ok (rec, traces)) :
    rec.lfp_sampling_rate = TARGET_SAMPLING_RATE ∧
    rec.execution_duration = execDur ∧
    traces.length = (out.channels.zip out.all_lfps).length := by
  unfold make_insert at h
  split at h
  · next ts heq =>
    cases h
    exact ⟨rfl, rfl, buildTraces_length out.chanMap _ _ heq⟩
  · cases h

/-- Witness for C9: a concrete successful insert stores 2500 Hz and one
trace row for the single channel. -/
theorem lfp_insert_target_rate_witness :
    ({ lfp_sampling_rate := 2500, execution_duration := 0 } : LfpRecord).lfp_sampling_rate
        = TARGET_SAMPLING_RATE ∧
    ({ lfp_sampling_rate := 2500, execution_duration := 0 } : LfpRecord).execution_duration
        = (0 : Q) ∧
    ([{ electrode := 0, lfp := [] }] : List TraceRow).length
        = (out0.channels.zip out0.all_lfps).length :=
  lfp_insert_target_rate out0 0 _ _ rfl

/-- Counterexample for C9: a run whose header sample rate is 2525 Hz is
accepted with downsample factor 1, so the realized rate of the produced
traces is 2525 Hz, yet the output record stores 2500 Hz: the stored value
is the fixed target, not the realized rate. -/
theorem lfp_sampling_rate_counterexample :
    (lfp_make opsId store2525 files0 "A" none cfg1 0 k0).2 =
      .ok (some ({ lfp_sampling_rate := 2500, execution_duration := 0 },
                 [{ electrode := 0, lfp := [] }])) ∧
    ¬ Q.eqv ({ lfp_sampling_rate := 2500, execution_duration := 0 } : LfpRecord).lfp_sampling_rate
        (d2525.sample_rate / Q.ofInt (npRound (d2525.sample_rate / TARGET_SAMPLING_RATE))) :=
  ⟨rfl, by decide⟩

/-- C10 (confirmed): an empty `used_electrodes` list is treated exactly
like None by both the LFP fetch (the whole electrode configuration is kept)
and the PreProcessing electrode normalization (the full range is used and
the channel-removal step removes nothing). -/
theorem empty_used_electrodes_as_null
    (files : List RawFile) (port_id : String) (config : List ElectrodeRec)
    (k : EphysSessionKey) (edf : List ElectrodeRec) (chans : List String) :
    make_fetch files port_id (some []) config k = make_fetch files port_id none config k ∧
    preprocessUsedElectrodes (some []) edf.length = preprocessUsedElectrodes none edf.length ∧
    preprocessRemoveChannels port_id edf (some []) chans
      = preprocessRemoveChannels port_id edf none chans ∧
    preprocessRemoveChannels port_id edf none chans = .ok chans := by
  refine ⟨rfl, rfl, rfl, ?_⟩
  have h : preprocessUnusedElectrodes none edf.length = [] := by
    simp [preprocessUnusedElectrodes, preprocessUsedElectrodes]
  unfold preprocessRemoveChannels
  rw [h]
  rfl

/-- C7 (confirmed): when a row with the same content hash already exists,
`insert_new_params` is a no-op if the requested index equals the existing
row's index and raises a DataJointError if it differs; in both cases no new
row is inserted and any successful result is the unchanged table. -/
theorem insert_new_params_conflict
    (hashFn : List (String × Int) → String → Nat) (tbl : List ParamRow)
    (clustering_method paramset_desc : String) (params : List (String × Int))
    (idx : Int) (row : ParamRow)
    (hfind : tbl.find? (fun r => r.param_set_hash == hashFn params clustering_method)
        = some row) :
    insert_new_params hashFn tbl clustering_method paramset_desc params (some idx) =
      (if row.paramset_idx = idx then .ok tbl else .error .duplicateHash) ∧
    ∀ tbl2, insert_new_params hashFn tbl clustering_method paramset_desc params (some idx)
        = .ok tbl2 → tbl2 = tbl := by
  have hbody : insert_new_params hashFn tbl clustering_method paramset_desc params (some idx) =
      (if row.paramset_idx = idx then .ok tbl else .error .duplicateHash) := by
    unfold insert_new_params
    dsimp only
    rw [hfind]
  refine ⟨hbody, ?_⟩
  intro tbl2 h
  rw [hbody] at h
  split at h
  · cases h
    rfl
  · cases h

/-- Witness for C7: against a table holding the hash 42 at index 1,
re-inserting at index 1 is a no-op and inserting at index 2 is a conflict
error. -/
theorem insert_new_params_conflict_witness :
    insert_new_params hf0 tbl0 "kilosort2" "d" [] (some 1) = .ok tbl0 ∧
    insert_new_params hf0 tbl0 "kilosort2" "d" [] (some 2) = .error .duplicateHash := by
  constructor
  · have h := (insert_new_params_conflict hf0 tbl0 "kilosort2" "d" [] 1 row0 rfl).1
    simpa using h
  · have h := (insert_new_params_conflict hf0 tbl0 "kilosort2" "d" [] 2 row0 rfl).1
    simpa using h

/-- A just-published complete artifact is what the store returns at its
path. -/
theorem storeGet_storePut (st : FileStore) (p : String) (a : Artifact) :
    storeGet (storePut st p a) p = some a := by
  simp [storeGet, storePut, List.find?]

/-- Unfolding of `memoized_result` when the output path holds an artifact. -/
theorem memoized_result_get_some (h : Nat) (outDir : String)
    (run : Unit → List Nat) (st : FileStore) (a : Artifact)
    (hg : storeGet st outDir = some a) :
    memoized_result h outDir run st =
      (if a.complete && a.contentHash == h then (st, 0)
       else (storePut st outDir { contentHash := h, bytes := run (), complete := true }, 1)) := by
  unfold memoized_result
  rw [hg]

/-- Unfolding of `memoized_result` when the output path holds nothing. -/
theorem memoized_result_get_none (h : Nat) (outDir : String)
    (run : Unit → List Nat) (st : FileStore)
    (hg : storeGet st outDir = none) :
    memoized_result h outDir run st =
      (storePut st outDir { contentHash := h, bytes := run (), complete := true }, 1) := by
  unfold memoized_result
  rw [hg]

/-- Running `memoized_result` a second time over the store produced by a
first run, with the same hash and output path, reuses the artifact: the
store is unchanged and no invocation happens. -/
theorem memoized_result_stable (h : Nat) (outDir : String)
    (run1 run2 : Unit → List Nat) (st : FileStore) :
    memoized_result h outDir run2 (memoized_result h outDir run1 st).1
      = ((memoized_result h outDir run1 st).1, 0) := by
  cases hg : storeGet st outDir with
  | none =>
    rw [memoized_result_get_none h outDir run1 st hg]
    dsimp only
    rw [memoized_result_get_some h outDir run2 _ _ (storeGet_storePut st outDir _)]
    simp
  | some a =>
    by_cases hc : (a.complete && a.contentHash == h) = true
    · have h1 : memoized_result h outDir run1 st = (st, 0) := by
        rw [memoized_result_get_some h outDir run1 st a hg, if_pos hc]
      rw [h1]
      dsimp only
      rw [memoized_result_get_some h outDir run2 st a hg, if_pos hc]
    · have h1 : memoized_result h outDir run1 st
          = (storePut st outDir { contentHash := h, bytes := run1 (), complete := true }, 1) := by
        rw [memoized_result_get_some h outDir run1 st a hg, if_neg hc]
      rw [h1]
      dsimp only
      rw [memoized_result_get_some h outDir run2 _ _ (storeGet_storePut st outDir _)]
      simp

/-- C2 (confirmed): invoking the Sorting stage a second time for the same
task with an unchanged parameter content hash performs zero additional
external sorter invocations and leaves the published artifact store
unchanged; and whenever a complete artifact with the matching hash already
sits at the deterministic output path, one invocation performs zero
external sorter runs and changes nothing. -/
theorem sorting_memoized_idempotent (h : Nat) (outDir : String)
    (runSorter : Unit → List Nat) (st : FileStore) (tbl tbl2 : List Nat)
    (task : Nat) (a : Artifact) :
    ((siClustering_make h outDir runSorter
        (siClustering_make h outDir runSorter st tbl task).1 tbl2 task).2.2 = 0 ∧
     (siClustering_make h outDir runSorter
        (siClustering_make h outDir runSorter st tbl task).1 tbl2 task).1 =
       (siClustering_make h outDir runSorter st tbl task).1) ∧
    (storeGet st outDir = some a → a.complete = true → a.contentHash = h →
      siClustering_make h outDir runSorter st tbl task = (st, tbl ++ [task], 0)) := by
  constructor
  · have hs := memoized_result_stable h outDir runSorter runSorter st
    unfold siClustering_make
    rw [hs]
    exact ⟨rfl, rfl⟩
  · intro hget hc hh
    have h1 : memoized_result h outDir runSorter st = (st, 0) := by
      rw [memoized_result_get_some h outDir runSorter st a hget,
          if_pos (by rw [hc, hh]; simp)]
    unfold siClustering_make
    rw [h1]

/-- Witness for C2: with a complete artifact of hash 7 already published at
the sorting output path, the stage performs zero sorter invocations and the
store is unchanged. -/
theorem sorting_memoized_idempotent_witness :
    siClustering_make 7 "out" (fun _ => [9]) stMemo [] 0 = (stMemo, [0], 0) :=
  (sorting_memoized_idempotent 7 "out" (fun _ => [9]) stMemo [] [] 0 art7).2
    rfl rfl rfl

/-- One pipeline step preserves the referential invariants of the stage
tables. -/
theorem pipeStep_inv {s s2 : PipeState} (hinv : PipeInv s) (hstep : PipeStep s s2) :
    PipeInv s2 := by
  obtain ⟨h1, h2, h3⟩ := hinv
  cases hstep with
  | pre t ht =>
    exact ⟨h1, h2, fun u hu => List.mem_cons_of_mem _ (h3 u hu)⟩
  | sort t ht =>
    refine ⟨h1, fun u hu => List.mem_cons_of_mem _ (h2 u hu), ?_⟩
    intro u hu
    rcases List.mem_cons.mp hu with heq | hmem
    · subst heq
      exact (List.mem_filter.mp ht).1
    · exact h3 u hmem
  | post t ht =>
    refine ⟨?_, ?_, h3⟩
    · intro u hu
      rcases List.mem_cons.mp hu with heq | hmem
      · subst heq
        exact List.mem_cons_self _ _
      · exact List.mem_cons_of_mem _ (h1 u hmem)
    · intro u hu
      rcases List.mem_cons.mp hu with heq | hmem
      · subst heq
        exact (List.mem_filter.mp ht).1
      · exact h2 u hmem

/-- A pipeline step never removes a PostProcessing row. -/
theorem pipeStep_post_mono {s s2 : PipeState} (hstep : PipeStep s s2) :
    ∀ t ∈ s.postProcessed, t ∈ s2.postProcessed := by
  cases hstep with
  | pre t ht => exact fun u hu => hu
  | sort t ht => exact fun u hu => hu
  | post t ht => exact fun u hu => List.mem_cons_of_mem _ hu

/-- Along any run of the pipeline the invariants persist and PostProcessing
rows are never lost. -/
theorem pipeReach {s s2 : PipeState} (hinv : PipeInv s)
    (hr : Relation.ReflTransGen PipeStep s s2) :
    PipeInv s2 ∧ ∀ t ∈ s.postProcessed, t ∈ s2.postProcessed := by
  induction hr with
  | refl => exact ⟨hinv, fun t ht => ht⟩
  | tail hsteps hstep ih =>
    exact ⟨pipeStep_inv ih.1 hstep,
           fun t ht => pipeStep_post_mono hstep t (ih.2 t ht)⟩

/-- C3 (confirmed): once a task has a complete PostProcessing record (and
hence its Clustering completion record), it never again appears in the
pending-work set of the PreProcessing stage or of the Sorting stage, in any
state reachable by further pipeline invocations. -/
theorem postprocessed_never_pending (s s2 : PipeState) (t : Nat)
    (hinv : PipeInv s) (hpost : t ∈ s.postProcessed)
    (hreach : Relation.ReflTransGen PipeStep s s2) :
    t ∉ pendingPre s2 ∧ t ∉ pendingSorting s2 := by
  obtain ⟨hinv2, hmono⟩ := pipeReach hinv hreach
  have hp2 : t ∈ s2.postProcessed := hmono t hpost
  have hdone : t ∈ s2.clusteringDone := hinv2.1 t hp2
  have hsort : t ∈ s2.sortedTasks := hinv2.2.1 t hp2
  constructor
  · intro hmem
    have hpred := (List.mem_filter.mp hmem).2
    rw [Bool.and_eq_true, decide_eq_true_eq, decide_eq_true_eq] at hpred
    exact hpred.1 hdone
  · intro hmem
    have hpred := (List.mem_filter.mp hmem).2
    rw [decide_eq_true_eq] at hpred
    exact hpred hsort

/-- Witness for C3: in the state where task 0 has completed every stage,
it is pending neither for PreProcessing nor for Sorting. -/
theorem postprocessed_never_pending_witness :
    0 ∉ pendingPre sAll ∧ 0 ∉ pendingSorting sAll :=
  postprocessed_never_pending sAll sAll 0
    ⟨by decide, by decide, by decide⟩ (by decide) Relation.ReflTransGen.refl
